import Mathlib

/-!
Shallow embedding of the CHIP-8 interpreter core from `src/cpu.rs`
(leprekon91/chip8-rust).  The authoritative implementation is `cpu.rs`:
`main.rs` drives `Cpu::cycle`; `opcodes.rs` / `stack.rs` / `display.rs`
are dead drafts that are not used by the CPU engine.

Modelling conventions:
- machine integers are `Nat` with explicit `% 256` where u8 overflow
  matters; `usize` values are plain `Nat`;
- fixed Rust arrays (`memory`, `v_registers`, `stack`, `keypad`, the
  64x32 `display`) are total functions; every place where the Rust code
  can index out of an array's real bounds at runtime (stack push/pop,
  memory accesses driven by `index_register` / `program_counter`, the
  `keypad[Vx]` lookup) is guarded and the operation returns `none`,
  modelling the Rust panic.  Register / display indices are always in
  range in the Rust code (they come from 4-bit nibbles or are reduced
  `mod 64` / `mod 32`), so those reads need no guard;
- `rand::thread_rng().gen::<u8>()` in `op_cxkk` is modelled by an
  explicit oracle byte `rand` threaded through `exec_opcode` / `cycle`.
-/

namespace Chip8

def MEMORY_SIZE : Nat := 4096
def DISPLAY_HEIGHT : Nat := 32
def DISPLAY_WIDTH : Nat := 64
def REGISTER_COUNT : Nat := 16
def STACK_SIZE : Nat := 16
def OPCODE_SIZE : Nat := 2
def PROGRAM_START : Nat := 0x200

/-- The CPU state, mirroring `struct Cpu` in `src/cpu.rs`. -/
structure Cpu where
  memory : Nat → Nat
  v_registers : Nat → Nat
  index_register : Nat
  program_counter : Nat
  stack : Nat → Nat
  stack_pointer : Nat
  delay_timer : Nat
  sound_timer : Nat
  keypad : Nat → Bool
  keypad_waiting : Bool
  keypad_register : Nat
  display : Nat → Nat → Nat
  display_changed : Bool

/-- Program-counter effect returned by each instruction handler
(`enum PcInstructions` in `src/cpu.rs`). -/
inductive PcInstructions where
  | Next
  | Skip
  | Jump (addr : Nat)
deriving DecidableEq

/-- `PcInstructions::skip_if` in `src/cpu.rs`. -/
def PcInstructions.skip_if (condition : Bool) : PcInstructions :=
  if condition then .Skip else .Next

/-- Point update of a register/stack/memory array modelled as a function. -/
def upd (f : Nat → Nat) (i v : Nat) : Nat → Nat := fun j => if j = i then v else f j

/-- Point update of the 2-D display array. -/
def updD (d : Nat → Nat → Nat) (r c v : Nat) : Nat → Nat → Nat :=
  fun r' c' => if r' = r ∧ c' = c then v else d r' c'

/-- Rust `u8::wrapping_add` (arguments are u8 values, i.e. `< 256`). -/
def wrapping_add (a b : Nat) : Nat := (a + b) % 256

/-- Rust `u8::wrapping_sub` (exact for arguments `< 256`). -/
def wrapping_sub (a b : Nat) : Nat := (a + 256 - b) % 256

/-- Rust `u8::overflowing_add`. -/
def overflowing_add (a b : Nat) : Nat × Bool := ((a + b) % 256, 255 < a + b)

/-! ### Instruction handlers.

Each handler mirrors the corresponding `fn op_...` of `src/cpu.rs`; `none`
models a Rust panic (array index out of bounds / usize underflow). -/

/-- CLS: clear the display. -/
def op_00e0 (s : Cpu) : Option (Cpu × PcInstructions) :=
  some ({ s with display := fun _ _ => 0, display_changed := true }, .Next)

/-- RET: `self.stack_pointer -= 1; Jump(self.stack[self.stack_pointer])`.
The unchecked decrement of the `usize` stack pointer panics when the
stack is empty. -/
def op_00ee (s : Cpu) : Option (Cpu × PcInstructions) :=
  if s.stack_pointer = 0 then none
  else
    some ({ s with stack_pointer := s.stack_pointer - 1 },
          .Jump (s.stack (s.stack_pointer - 1)))

/-- JP addr. -/
def op_1nnn (nnn : Nat) (s : Cpu) : Option (Cpu × PcInstructions) :=
  some (s, .Jump nnn)

/-- CALL addr: `stack[sp] = pc + OPCODE_SIZE; sp += 1; Jump(nnn)`.
Indexing `stack[16]` panics when the stack is full. -/
def op_2nnn (nnn : Nat) (s : Cpu) : Option (Cpu × PcInstructions) :=
  if s.stack_pointer < STACK_SIZE then
    some ({ s with
              stack := upd s.stack s.stack_pointer (s.program_counter + OPCODE_SIZE),
              stack_pointer := s.stack_pointer + 1 },
          .Jump nnn)
  else none

/-- SE Vx, byte. -/
def op_3xkk (x kk : Nat) (s : Cpu) : Option (Cpu × PcInstructions) :=
  if s.v_registers x = kk then some (s, .Skip) else some (s, .Next)

/-- SNE Vx, byte. -/
def op_4xkk (x kk : Nat) (s : Cpu) : Option (Cpu × PcInstructions) :=
  if s.v_registers x ≠ kk then some (s, .Skip) else some (s, .Next)

/-- SE Vx, Vy. -/
def op_5xy0 (x y : Nat) (s : Cpu) : Option (Cpu × PcInstructions) :=
  if s.v_registers x = s.v_registers y then some (s, .Skip) else some (s, .Next)

/-- LD Vx, byte. -/
def op_6xkk (x kk : Nat) (s : Cpu) : Option (Cpu × PcInstructions) :=
  some ({ s with v_registers := upd s.v_registers x kk }, .Next)

/-- ADD Vx, byte (wrapping). -/
def op_7xkk (x kk : Nat) (s : Cpu) : Option (Cpu × PcInstructions) :=
  some ({ s with v_registers := upd s.v_registers x (wrapping_add (s.v_registers x) kk) },
        .Next)

/-- LD Vx, Vy. -/
def op_8xy0 (x y : Nat) (s : Cpu) : Option (Cpu × PcInstructions) :=
  some ({ s with v_registers := upd s.v_registers x (s.v_registers y) }, .Next)

/-- OR Vx, Vy. -/
def op_8xy1 (x y : Nat) (s : Cpu) : Option (Cpu × PcInstructions) :=
  some ({ s with v_registers := upd s.v_registers x (s.v_registers x ||| s.v_registers y) },
        .Next)

/-- AND Vx, Vy. -/
def op_8xy2 (x y : Nat) (s : Cpu) : Option (Cpu × PcInstructions) :=
  some ({ s with v_registers := upd s.v_registers x (s.v_registers x &&& s.v_registers y) },
        .Next)

/-- XOR Vx, Vy. -/
def op_8xy3 (x y : Nat) (s : Cpu) : Option (Cpu × PcInstructions) :=
  some ({ s with v_registers := upd s.v_registers x (s.v_registers x ^^^ s.v_registers y) },
        .Next)

/-- ADD Vx, Vy with carry: `(result, overflow) = Vx.overflowing_add(Vy);
Vx = result; VF = overflow`.  Result and flag are computed from the
original registers; VF is written after the result. -/
def op_8xy4 (x y : Nat) (s : Cpu) : Option (Cpu × PcInstructions) :=
  let p := overflowing_add (s.v_registers x) (s.v_registers y)
  let v1 := upd s.v_registers x p.1
  let v2 := upd v1 0xF (if p.2 then 1 else 0)
  some ({ s with v_registers := v2 }, .Next)

/-- SUB Vx, Vy: the code writes `VF = (Vx > Vy)` FIRST, then
`Vx = Vx.wrapping_sub(Vy)` reading the already-updated register file. -/
def op_8xy5 (x y : Nat) (s : Cpu) : Option (Cpu × PcInstructions) :=
  let v1 := upd s.v_registers 0xF (if s.v_registers y < s.v_registers x then 1 else 0)
  let v2 := upd v1 x (wrapping_sub (v1 x) (v1 y))
  some ({ s with v_registers := v2 }, .Next)

/-- SHR Vx: the code writes `VF = Vx & 1` FIRST, then shifts the
(possibly just-updated) register. -/
def op_8x06 (x : Nat) (s : Cpu) : Option (Cpu × PcInstructions) :=
  let v1 := upd s.v_registers 0xF (s.v_registers x &&& 0x1)
  let v2 := upd v1 x (v1 x >>> 1)
  some ({ s with v_registers := v2 }, .Next)

/-- SUBN Vx, Vy: `VF = (Vy > Vx)` first, then `Vx = Vy.wrapping_sub(Vx)`
reading the already-updated register file. -/
def op_8xy7 (x y : Nat) (s : Cpu) : Option (Cpu × PcInstructions) :=
  let v1 := upd s.v_registers 0xF (if s.v_registers x < s.v_registers y then 1 else 0)
  let v2 := upd v1 x (wrapping_sub (v1 y) (v1 x))
  some ({ s with v_registers := v2 }, .Next)

/-- SHL Vx: `VF = Vx >> 7` first, then `Vx <<= 1` (u8, so mod 256)
reading the already-updated register file. -/
def op_8x0e (x : Nat) (s : Cpu) : Option (Cpu × PcInstructions) :=
  let v1 := upd s.v_registers 0xF (s.v_registers x >>> 7)
  let v2 := upd v1 x ((v1 x <<< 1) % 256)
  some ({ s with v_registers := v2 }, .Next)

/-- SNE Vx, Vy. -/
def op_9xy0 (x y : Nat) (s : Cpu) : Option (Cpu × PcInstructions) :=
  if s.v_registers x ≠ s.v_registers y then some (s, .Skip) else some (s, .Next)

/-- LD I, addr. -/
def op_annn (nnn : Nat) (s : Cpu) : Option (Cpu × PcInstructions) :=
  some ({ s with index_register := nnn }, .Next)

/-- JP V0, addr. -/
def op_bnnn (nnn : Nat) (s : Cpu) : Option (Cpu × PcInstructions) :=
  some (s, .Jump (nnn + s.v_registers 0))

/-- RND Vx, byte; the thread-local RNG byte is the oracle `rand`. -/
def op_cxkk (x kk rand : Nat) (s : Cpu) : Option (Cpu × PcInstructions) :=
  some ({ s with v_registers := upd s.v_registers x ((rand % 256) &&& kk) }, .Next)

/-- ADD I, Vx: `index += Vx`, then VF is unconditionally set from the
comparison of the UPDATED index register against 0x0F00. -/
def op_fx1e (x : Nat) (s : Cpu) : Option (Cpu × PcInstructions) :=
  let i2 := s.index_register + s.v_registers x
  some ({ s with
            index_register := i2,
            v_registers := upd s.v_registers 0xF (if 0x0F00 < i2 then 1 else 0) },
        .Next)

/-- One inner-loop step of DRW (`for bit in 0..8`): compute the wrapped
column from the CURRENT register file, read the sprite bit, OR the
collision bit into VF, then XOR the sprite bit into the pixel. -/
def drawBit (x byte yRow : Nat) (s : Cpu) (bit : Nat) : Cpu :=
  let xCol := (s.v_registers x + bit) % DISPLAY_WIDTH
  let color := (s.memory (s.index_register + byte) >>> (7 - bit)) &&& 1
  let s1 := { s with
                v_registers := upd s.v_registers 0xF
                  (s.v_registers 0xF ||| (color &&& s.display yRow xCol)) }
  { s1 with display := updD s1.display yRow xCol (s1.display yRow xCol ^^^ color) }

/-- One outer-loop step of DRW (`for byte in 0..n`): the wrapped row is
computed from the CURRENT register file at the start of the row. -/
def drawByte (x y : Nat) (s : Cpu) (byte : Nat) : Cpu :=
  let yRow := (s.v_registers y + byte) % DISPLAY_HEIGHT
  (List.range 8).foldl (drawBit x byte yRow) s

/-- DRW Vx, Vy, n.  `VF = 0` first, then the nested loops; reading the
sprite row `memory[index_register + byte]` panics when out of bounds. -/
def op_dxyn (x y n : Nat) (s : Cpu) : Option (Cpu × PcInstructions) :=
  if n = 0 ∨ s.index_register + n ≤ MEMORY_SIZE then
    let s0 := { s with v_registers := upd s.v_registers 0xF 0 }
    let s1 := (List.range n).foldl (drawByte x y) s0
    some ({ s1 with display_changed := true }, .Next)
  else none

/-- SKP Vx: `keypad[Vx]` panics when `Vx ≥ 16`. -/
def op_ex9e (x : Nat) (s : Cpu) : Option (Cpu × PcInstructions) :=
  if s.v_registers x < 16 then
    some (s, PcInstructions.skip_if (s.keypad (s.v_registers x)))
  else none

/-- SKNP Vx: `keypad[Vx]` panics when `Vx ≥ 16`. -/
def op_exa1 (x : Nat) (s : Cpu) : Option (Cpu × PcInstructions) :=
  if s.v_registers x < 16 then
    some (s, PcInstructions.skip_if (! s.keypad (s.v_registers x)))
  else none

/-- LD Vx, DT. -/
def op_fx07 (x : Nat) (s : Cpu) : Option (Cpu × PcInstructions) :=
  some ({ s with v_registers := upd s.v_registers x s.delay_timer }, .Next)

/-- LD Vx, K: record the wait state and the target register; the stall
itself happens in the cycle driver. -/
def op_fx0a (x : Nat) (s : Cpu) : Option (Cpu × PcInstructions) :=
  some ({ s with keypad_waiting := true, keypad_register := x }, .Next)

/-- LD DT, Vx. -/
def op_fx15 (x : Nat) (s : Cpu) : Option (Cpu × PcInstructions) :=
  some ({ s with delay_timer := s.v_registers x }, .Next)

/-- LD ST, Vx. -/
def op_fx18 (x : Nat) (s : Cpu) : Option (Cpu × PcInstructions) :=
  some ({ s with sound_timer := s.v_registers x }, .Next)

/-- LD F, Vx. -/
def op_fx29 (x : Nat) (s : Cpu) : Option (Cpu × PcInstructions) :=
  some ({ s with index_register := s.v_registers x * 5 }, .Next)

/-- LD B, Vx (BCD store); panics when `index + 2` is out of bounds. -/
def op_fx33 (x : Nat) (s : Cpu) : Option (Cpu × PcInstructions) :=
  if s.index_register + 2 < MEMORY_SIZE then
    let value := s.v_registers x
    let m1 := upd s.memory s.index_register (value / 100)
    let m2 := upd m1 (s.index_register + 1) ((value / 10) % 10)
    let m3 := upd m2 (s.index_register + 2) ((value % 100) % 10)
    some ({ s with memory := m3 }, .Next)
  else none

/-- LD [I], Vx: `for i in 0..=x { memory[index + i] = V i }`. -/
def op_fx55 (x : Nat) (s : Cpu) : Option (Cpu × PcInstructions) :=
  if s.index_register + x < MEMORY_SIZE then
    some ({ s with
              memory := (List.range (x + 1)).foldl
                (fun m i => upd m (s.index_register + i) (s.v_registers i)) s.memory },
          .Next)
  else none

/-- LD Vx, [I]: `for i in 0..=x { V i = memory[index + i] }`. -/
def op_fx65 (x : Nat) (s : Cpu) : Option (Cpu × PcInstructions) :=
  if s.index_register + x < MEMORY_SIZE then
    some ({ s with
              v_registers := (List.range (x + 1)).foldl
                (fun v i => upd v i (s.memory (s.index_register + i))) s.v_registers },
          .Next)
  else none

/-- `fetch_opcode`: big-endian pair of bytes at `[pc, pc+1]`; reading
past the memory array panics. -/
def fetch_opcode (s : Cpu) : Option Nat :=
  if s.program_counter + 1 < MEMORY_SIZE then
    some ((s.memory s.program_counter <<< 8) ||| s.memory (s.program_counter + 1))
  else none

/-- `exec_opcode`: nibble decomposition and the dispatch table of
`src/cpu.rs`, written as an if-chain in the source's match-arm order
(the arms are mutually exclusive, so the order is immaterial). -/
def exec_opcode (s : Cpu) (opcode rand : Nat) : Option (Cpu × PcInstructions) :=
  let n1 := (opcode &&& 0xF000) >>> 12
  let n2 := (opcode &&& 0x0F00) >>> 8
  let n3 := (opcode &&& 0x00F0) >>> 4
  let n4 := opcode &&& 0x000F
  let nnn := opcode &&& 0x0FFF
  let kk := opcode &&& 0x00FF
  let x := n2
  let y := n3
  let n := n4
  if n1 = 0x0 ∧ n2 = 0x0 ∧ n3 = 0xe ∧ n4 = 0x0 then op_00e0 s
  else if n1 = 0x0 ∧ n2 = 0x0 ∧ n3 = 0xe ∧ n4 = 0xe then op_00ee s
  else if n1 = 0x1 then op_1nnn nnn s
  else if n1 = 0x2 then op_2nnn nnn s
  else if n1 = 0x3 then op_3xkk x kk s
  else if n1 = 0x4 then op_4xkk x kk s
  else if n1 = 0x5 ∧ n4 = 0x0 then op_5xy0 x y s
  else if n1 = 0x6 then op_6xkk x kk s
  else if n1 = 0x7 then op_7xkk x kk s
  else if n1 = 0x8 ∧ n4 = 0x0 then op_8xy0 x y s
  else if n1 = 0x8 ∧ n4 = 0x1 then op_8xy1 x y s
  else if n1 = 0x8 ∧ n4 = 0x2 then op_8xy2 x y s
  else if n1 = 0x8 ∧ n4 = 0x3 then op_8xy3 x y s
  else if n1 = 0x8 ∧ n4 = 0x4 then op_8xy4 x y s
  else if n1 = 0x8 ∧ n4 = 0x5 then op_8xy5 x y s
  else if n1 = 0x8 ∧ n4 = 0x6 then op_8x06 x s
  else if n1 = 0x8 ∧ n4 = 0x7 then op_8xy7 x y s
  else if n1 = 0x8 ∧ n4 = 0xe then op_8x0e x s
  else if n1 = 0x9 ∧ n4 = 0x0 then op_9xy0 x y s
  else if n1 = 0xa then op_annn nnn s
  else if n1 = 0xb then op_bnnn nnn s
  else if n1 = 0xc then op_cxkk x kk rand s
  else if n1 = 0xd then op_dxyn x y n s
  else if n1 = 0xe ∧ n3 = 0x9 ∧ n4 = 0xe then op_ex9e x s
  else if n1 = 0xe ∧ n3 = 0xa ∧ n4 = 0x1 then op_exa1 x s
  else if n1 = 0xf ∧ n3 = 0x0 ∧ n4 = 0x7 then op_fx07 x s
  else if n1 = 0xf ∧ n3 = 0x0 ∧ n4 = 0xa then op_fx0a x s
  else if n1 = 0xf ∧ n3 = 0x1 ∧ n4 = 0x5 then op_fx15 x s
  else if n1 = 0xf ∧ n3 = 0x1 ∧ n4 = 0x8 then op_fx18 x s
  else if n1 = 0xf ∧ n3 = 0x1 ∧ n4 = 0xe then op_fx1e x s
  else if n1 = 0xf ∧ n3 = 0x2 ∧ n4 = 0x9 then op_fx29 x s
  else if n1 = 0xf ∧ n3 = 0x3 ∧ n4 = 0x3 then op_fx33 x s
  else if n1 = 0xf ∧ n3 = 0x5 ∧ n4 = 0x5 then op_fx55 x s
  else if n1 = 0xf ∧ n3 = 0x6 ∧ n4 = 0x5 then op_fx65 x s
  else some (s, .Next)

/-- The key scan run by `cycle` while `keypad_waiting`: the Rust loop
`for i in 0..16 { if keypad[i] { waiting = false; V[kr] = i; break } }`
takes the LOWEST pressed index. -/
def waitKeyScan (k : Nat → Bool) (s : Cpu) : Cpu :=
  match (List.range 16).find? (fun i => k i) with
  | some i =>
      { s with keypad_waiting := false,
               v_registers := upd s.v_registers s.keypad_register i }
  | none => s

/-- PC update performed by the cycle driver from the handler's effect. -/
def applyPc (p : PcInstructions) (s : Cpu) : Cpu :=
  match p with
  | .Next => { s with program_counter := s.program_counter + OPCODE_SIZE }
  | .Skip => { s with program_counter := s.program_counter + 2 * OPCODE_SIZE }
  | .Jump addr => { s with program_counter := addr }

/-- Timer decrements at the end of a non-waiting cycle. -/
def tickTimers (s : Cpu) : Cpu :=
  let s1 := if 0 < s.delay_timer then { s with delay_timer := s.delay_timer - 1 } else s
  if 0 < s1.sound_timer then { s1 with sound_timer := s1.sound_timer - 1 } else s1

/-- Output snapshot returned by `Cpu::cycle`. -/
structure OutputState where
  display : Nat → Nat → Nat
  display_changed : Bool
  beep : Bool

/-- The snapshot built at the end of `Cpu::cycle`. -/
def outputState (s : Cpu) : OutputState :=
  { display := s.display, display_changed := s.display_changed,
    beep := 0 < s.sound_timer }

/-- `Cpu::cycle`: latch the keypad snapshot and reset the dirty flag;
if waiting for a key, only scan the keypad; otherwise fetch, dispatch,
apply the PC effect, and decrement the timers.  `none` models a panic
inside the cycle. -/
def cycle (k : Nat → Bool) (rand : Nat) (s : Cpu) : Option Cpu :=
  let sIn := { s with keypad := k, display_changed := false }
  if sIn.keypad_waiting then some (waitKeyScan k sIn)
  else
    match fetch_opcode sIn with
    | none => none
    | some opcode =>
      match exec_opcode sIn opcode rand with
      | none => none
      | some (s1, pcI) => some (tickTimers (applyPc pcI s1))

/-! ### Projections used to state theorems about handler results. -/

/-- Register `i` after a handler result. -/
def vAfter (r : Option (Cpu × PcInstructions)) (i : Nat) : Option Nat :=
  r.map fun p => p.1.v_registers i

/-- Index register after a handler result. -/
def iAfter (r : Option (Cpu × PcInstructions)) : Option Nat :=
  r.map fun p => p.1.index_register

/-- Display pixel `(row, col)` after a handler result. -/
def dAfter (r : Option (Cpu × PcInstructions)) (row col : Nat) : Option Nat :=
  r.map fun p => p.1.display row col

/-- PC effect of a handler result. -/
def effOf (r : Option (Cpu × PcInstructions)) : Option PcInstructions :=
  r.map fun p => p.2

/-- An all-zero CPU state used to build concrete witness states. -/
def baseCpu : Cpu :=
  { memory := fun _ => 0, v_registers := fun _ => 0, index_register := 0,
    program_counter := 0x200, stack := fun _ => 0, stack_pointer := 0,
    delay_timer := 0, sound_timer := 0, keypad := fun _ => false,
    keypad_waiting := false, keypad_register := 0,
    display := fun _ _ => 0, display_changed := false }

theorem upd_self (f : Nat → Nat) (i v : Nat) : upd f i v i = v := by simp [upd]

theorem upd_ne (f : Nat → Nat) (i v j : Nat) (h : j ≠ i) : upd f i v j = f j := by
  simp [upd, h]

/-! ### C8 — ADD Vx, Vy (8xy4). -/

/-- C8: for every pair of register indices (including `x = 0xF` and
`x = y`), ADD (8xy4) stores `(Vx + Vy) % 256` into Vx, then writes VF
last with the carry flag (`1` iff the unsigned sum exceeds `255`), both
computed from the original register values; the handler never fails and
reports the `Next` PC effect.  The final register file is exactly
"store the sum into Vx, then write the flag into VF". -/
theorem c8_add_carry (s : Cpu) (x y : Nat) :
    (∀ i, vAfter (op_8xy4 x y s) i =
      some (upd (upd s.v_registers x ((s.v_registers x + s.v_registers y) % 256)) 0xF
              (if 255 < s.v_registers x + s.v_registers y then 1 else 0) i)) ∧
    effOf (op_8xy4 x y s) = some PcInstructions.Next := by
  refine ⟨fun i => ?_, rfl⟩
  simp only [op_8xy4, overflowing_add, vAfter, Option.map_some]
  by_cases h : 255 < s.v_registers x + s.v_registers y <;> simp [h]

/-! ### C10 — ADD I, Vx (Fx1E). -/

/-- C10: Fx1E adds Vx to the index register and then, as its last step,
unconditionally overwrites VF with `1` if the UPDATED index register
exceeds `0x0F00` and `0` otherwise; every other register is untouched
and the PC effect is `Next`. -/
theorem c10_fx1e_flag (s : Cpu) (x : Nat) :
    iAfter (op_fx1e x s) = some (s.index_register + s.v_registers x) ∧
    vAfter (op_fx1e x s) 0xF =
      some (if 0x0F00 < s.index_register + s.v_registers x then 1 else 0) ∧
    (∀ i, i ≠ 0xF → vAfter (op_fx1e x s) i = some (s.v_registers i)) ∧
    effOf (op_fx1e x s) = some PcInstructions.Next := by
  refine ⟨rfl, ?_, fun i hi => ?_, rfl⟩
  · simp [op_fx1e, vAfter, upd]
  · simp [op_fx1e, vAfter, upd, hi]

/-- Concrete state for the C10 witness: `I = 0x0F00`, `V0 = 1`. -/
def c10WitState : Cpu :=
  { baseCpu with index_register := 0x0F00, v_registers := upd baseCpu.v_registers 0 1 }

/-- Witness for C10 at a concrete input: `I = 0x0F00`, `V0 = 1`; the
threshold is crossed, so VF ends at `1`, `I` at `0x0F01`, `V3` stays `0`. -/
theorem c10_fx1e_flag_witness :
    iAfter (op_fx1e 0 c10WitState) = some 0x0F01 ∧
    vAfter (op_fx1e 0 c10WitState) 0xF = some 1 ∧
    vAfter (op_fx1e 0 c10WitState) 3 = some 0 := by
  have h := c10_fx1e_flag c10WitState 0
  exact ⟨h.1, h.2.1, h.2.2.1 3 (by decide)⟩

/-! ### C1 — SUB (8xy5) and SUBN (8xy7). -/

/-- The concrete state refuting C1: `VF = 5`, `V0 = 3`. -/
def c1State : Cpu :=
  { baseCpu with v_registers := fun i => if i = 0xF then 5 else if i = 0 then 3 else 0 }

/-- C1 counterexample: executing SUB (8xy5) with `x = 0xF`, `y = 0` on
`VF = 5`, `V0 = 3` must, per the claim, leave `VF = 1` (the not-borrow
flag, since `5 > 3`, written as the final step).  The code writes the
flag FIRST and then overwrites VF with the wrapped difference
`(1 - 3) mod 256 = 254`. -/
theorem c1_counterexample :
    vAfter (op_8xy5 0xF 0 c1State) 0xF = some 254 ∧
    (if c1State.v_registers 0 < c1State.v_registers 0xF then (1 : Nat) else 0) = 1 ∧
    (254 : Nat) ≠ 1 :=
  ⟨rfl, rfl, by decide⟩

/-- C1 amended: SUB (8xy5) and SUBN (8xy7) write the not-borrow flag
(`1` iff minuend > subtrahend, computed from the original registers)
into VF FIRST, and then store the wrapped difference computed from the
post-flag register file into Vx.  Hence for `x ≠ 0xF` the claim's final
values hold (Vx = wrapped difference, VF = flag — reading VF as the
flag whenever an operand aliases it), but when the destination is VF
itself the final VF is the wrapped difference computed with the flag as
the aliased operand, not the flag. -/
theorem c1_sub_subn_flag_first (s : Cpu) (x y : Nat) :
    (vAfter (op_8xy5 x y s) x = some
      (((if x = 0xF then (if s.v_registers y < s.v_registers x then 1 else 0)
         else s.v_registers x) + 256 -
        (if y = 0xF then (if s.v_registers y < s.v_registers x then 1 else 0)
         else s.v_registers y)) % 256)) ∧
    (x ≠ 0xF → vAfter (op_8xy5 x y s) 0xF =
      some (if s.v_registers y < s.v_registers x then 1 else 0)) ∧
    (∀ i, i ≠ x → i ≠ 0xF → vAfter (op_8xy5 x y s) i = some (s.v_registers i)) ∧
    (vAfter (op_8xy7 x y s) x = some
      (((if y = 0xF then (if s.v_registers x < s.v_registers y then 1 else 0)
         else s.v_registers y) + 256 -
        (if x = 0xF then (if s.v_registers x < s.v_registers y then 1 else 0)
         else s.v_registers x)) % 256)) ∧
    (x ≠ 0xF → vAfter (op_8xy7 x y s) 0xF =
      some (if s.v_registers x < s.v_registers y then 1 else 0)) ∧
    (∀ i, i ≠ x → i ≠ 0xF → vAfter (op_8xy7 x y s) i = some (s.v_registers i)) ∧
    effOf (op_8xy5 x y s) = some PcInstructions.Next ∧
    effOf (op_8xy7 x y s) = some PcInstructions.Next := by
  refine ⟨?_, fun hx => ?_, fun i hix hiF => ?_, ?_, fun hx => ?_, fun i hix hiF => ?_,
    rfl, rfl⟩
  · by_cases hx : x = 0xF <;> by_cases hy : y = 0xF <;>
      simp [op_8xy5, wrapping_sub, vAfter, upd, hx, hy]
  · simp [op_8xy5, wrapping_sub, vAfter, upd, hx, Ne.symm hx]
  · simp [op_8xy5, wrapping_sub, vAfter, upd, hix, hiF]
  · by_cases hx : x = 0xF <;> by_cases hy : y = 0xF <;>
      simp [op_8xy7, wrapping_sub, vAfter, upd, hx, hy]
  · simp [op_8xy7, wrapping_sub, vAfter, upd, hx, Ne.symm hx]
  · simp [op_8xy7, wrapping_sub, vAfter, upd, hix, hiF]

/-- Concrete state for the C1 witness: `V2 = 3`, `V3 = 5`. -/
def c1WitState : Cpu :=
  { baseCpu with v_registers := fun i => if i = 2 then 3 else if i = 3 then 5 else 0 }

/-- Witness for C1's amended theorem at `x = 2`, `y = 3`, `V2 = 3`,
`V3 = 5`: `V2` becomes `(3 - 5) mod 256 = 254`, VF the flag `0`. -/
theorem c1_sub_subn_flag_first_witness :
    vAfter (op_8xy5 2 3 c1WitState) 2 = some 254 ∧
    vAfter (op_8xy5 2 3 c1WitState) 0xF = some 0 ∧
    vAfter (op_8xy7 2 3 c1WitState) 2 = some 2 ∧
    vAfter (op_8xy7 2 3 c1WitState) 0xF = some 1 ∧
    vAfter (op_8xy5 2 3 c1WitState) 4 = some 0 := by
  have h := c1_sub_subn_flag_first c1WitState 2 3
  exact ⟨h.1, h.2.1 (by decide), h.2.2.2.1, h.2.2.2.2.1 (by decide),
    h.2.2.1 4 (by decide) (by decide)⟩

/-! ### C2 — SHR (8x?6) and SHL (8x?E). -/

/-- The concrete state refuting C2: `VF = 3`. -/
def c2State : Cpu :=
  { baseCpu with v_registers := fun i => if i = 0xF then 3 else 0 }

/-- C2 counterexample: executing SHR (8x?6) with `x = 0xF` on `VF = 3`
must, per the claim, leave VF equal to the pre-shift least-significant
bit `3 &&& 1 = 1`.  The code writes that bit into VF first and then
shifts the register — which is VF itself — so VF ends at `1 >>> 1 = 0`. -/
theorem c2_counterexample :
    vAfter (op_8x06 0xF c2State) 0xF = some 0 ∧
    c2State.v_registers 0xF &&& 1 = 1 ∧
    (0 : Nat) ≠ 1 :=
  ⟨rfl, rfl, by decide⟩

/-- C2 amended: SHR (8x?6) and SHL (8x?E) capture the shifted-out bit
(`Vx &&& 1`, resp. `Vx >>> 7`) from the pre-shift value and write it to
VF BEFORE shifting, so for `x ≠ 0xF` the claim holds exactly: VF is the
captured bit and Vx the shifted pre-shift value.  When `x = 0xF` the
shift is applied to the just-written flag, so the final VF is the flag
shifted (`(Vx &&& 1) >>> 1 = 0` for SHR, `((Vx >>> 7) <<< 1) % 256` for
SHL), not the captured bit. -/
theorem c2_shift_flag_before (s : Cpu) (x : Nat) :
    (vAfter (op_8x06 x s) x =
      some ((if x = 0xF then s.v_registers x &&& 1 else s.v_registers x) >>> 1)) ∧
    (x ≠ 0xF → vAfter (op_8x06 x s) 0xF = some (s.v_registers x &&& 1)) ∧
    (∀ i, i ≠ x → i ≠ 0xF → vAfter (op_8x06 x s) i = some (s.v_registers i)) ∧
    (vAfter (op_8x0e x s) x =
      some (((if x = 0xF then s.v_registers x >>> 7 else s.v_registers x) <<< 1) % 256)) ∧
    (x ≠ 0xF → vAfter (op_8x0e x s) 0xF = some (s.v_registers x >>> 7)) ∧
    (∀ i, i ≠ x → i ≠ 0xF → vAfter (op_8x0e x s) i = some (s.v_registers i)) ∧
    effOf (op_8x06 x s) = some PcInstructions.Next ∧
    effOf (op_8x0e x s) = some PcInstructions.Next := by
  refine ⟨?_, fun hx => ?_, fun i hix hiF => ?_, ?_, fun hx => ?_, fun i hix hiF => ?_,
    rfl, rfl⟩
  · by_cases hx : x = 0xF <;> simp [op_8x06, vAfter, upd, hx]
  · simp [op_8x06, vAfter, upd, hx, Ne.symm hx]
  · simp [op_8x06, vAfter, upd, hix, hiF]
  · by_cases hx : x = 0xF <;> simp [op_8x0e, vAfter, upd, hx]
  · simp [op_8x0e, vAfter, upd, hx, Ne.symm hx]
  · simp [op_8x0e, vAfter, upd, hix, hiF]

/-- Concrete state for the C2 witness: `V2 = 5` (binary 101). -/
def c2WitState : Cpu :=
  { baseCpu with v_registers := fun i => if i = 2 then 5 else 0 }

/-- Witness for C2's amended theorem at `x = 2`, `V2 = 5`: SHR leaves
`V2 = 2` and `VF = 1` (the old LSB); SHL leaves `V2 = 10` and `VF = 0`
(the old MSB). -/
theorem c2_shift_flag_before_witness :
    vAfter (op_8x06 2 c2WitState) 2 = some 2 ∧
    vAfter (op_8x06 2 c2WitState) 0xF = some 1 ∧
    vAfter (op_8x0e 2 c2WitState) 2 = some 10 ∧
    vAfter (op_8x0e 2 c2WitState) 0xF = some 0 ∧
    vAfter (op_8x06 2 c2WitState) 4 = some 0 := by
  have h := c2_shift_flag_before c2WitState 2
  exact ⟨h.1, h.2.1 (by decide), h.2.2.2.1, h.2.2.2.2.1 (by decide),
    h.2.2.1 4 (by decide) (by decide)⟩

/-! ### C6 — stack underflow / overflow. -/

/-- A state about to execute RET (00EE) with an empty stack. -/
def c6UnderflowState : Cpu :=
  { baseCpu with
    memory := (fun a => if a = 0x200 then 0x00 else if a = 0x201 then 0xEE else 0) }

/-- A state about to execute CALL (2nnn) with a full stack (16 frames). -/
def c6OverflowState : Cpu :=
  { baseCpu with
    stack_pointer := 16,
    memory := (fun a => if a = 0x200 then 0x23 else 0) }

/-- C6: RET on an empty stack and CALL on a full stack do NOT surface a
distinguishable, context-carrying error: the Rust code performs an
unchecked `stack_pointer -= 1` (usize arithmetic-overflow panic) resp.
an out-of-bounds `stack[16]` write (index panic), modelled as `none` —
a bare abort with no opcode or program-counter payload.  The whole
cycle dies with it. -/
theorem c6_stack_panic :
    op_00ee c6UnderflowState = none ∧
    op_2nnn 0x300 c6OverflowState = none ∧
    cycle (fun _ => false) 0 c6UnderflowState = none ∧
    cycle (fun _ => false) 0 c6OverflowState = none :=
  ⟨rfl, rfl, rfl, rfl⟩

/-! ### C4 — the WaitingForKey cycle. -/

/-- `List.find?` over an ascending range returns the least element
satisfying the predicate. -/
theorem find?_range'_least (k : Nat → Bool) (j : Nat) :
    ∀ len st, st ≤ j → j < st + len → k j = true →
      (∀ i, st ≤ i → i < j → k i = false) →
      (List.range' st len).find? k = some j := by
  intro len
  induction len with
  | zero => intro st h1 h2 _ _; omega
  | succ len ih =>
    intro st h1 h2 hk hmin
    rw [List.range'_succ]
    rcases Nat.eq_or_lt_of_le h1 with he | hlt
    · subst he; simp [List.find?, hk]
    · have hst : k st = false := hmin st le_rfl hlt
      rw [List.find?_cons_of_neg _ (by simp [hst])]
      exact ih (st + 1) hlt (by omega) hk (fun i hi1 hi2 => hmin i (by omega) hi2)

/-- C4: on every cycle that starts in the WaitingForKey state, the
fetch/decode/execute step and the timer decrements are skipped: pc,
memory, stack, index and both timers are unchanged.  If no key of the
snapshot is pressed, the wait state persists and all registers are
unchanged; if some key is pressed, the lowest pressed index `j` is
written into the target register, the wait flag is cleared, and every
other register is unchanged — and the cycle never fails. -/
theorem c4_waiting_cycle (s : Cpu) (k : Nat → Bool) (rand : Nat)
    (hw : s.keypad_waiting = true) :
    ((cycle k rand s).map fun t => t.program_counter) = some s.program_counter ∧
    ((cycle k rand s).map fun t => t.delay_timer) = some s.delay_timer ∧
    ((cycle k rand s).map fun t => t.sound_timer) = some s.sound_timer ∧
    (∀ a, ((cycle k rand s).map fun t => t.memory a) = some (s.memory a)) ∧
    (∀ a, ((cycle k rand s).map fun t => t.stack a) = some (s.stack a)) ∧
    ((cycle k rand s).map fun t => t.stack_pointer) = some s.stack_pointer ∧
    ((cycle k rand s).map fun t => t.index_register) = some s.index_register ∧
    (∀ r c, ((cycle k rand s).map fun t => t.display r c) = some (s.display r c)) ∧
    ((∀ i, i < 16 → k i = false) →
      ((cycle k rand s).map fun t => t.keypad_waiting) = some true ∧
      ∀ i, ((cycle k rand s).map fun t => t.v_registers i) = some (s.v_registers i)) ∧
    (∀ j, j < 16 → k j = true → (∀ i, i < j → k i = false) →
      ((cycle k rand s).map fun t => t.keypad_waiting) = some false ∧
      ((cycle k rand s).map fun t => t.v_registers s.keypad_register) = some j ∧
      ∀ i, i ≠ s.keypad_register →
        ((cycle k rand s).map fun t => t.v_registers i) = some (s.v_registers i)) := by
  have hcy : cycle k rand s =
      some (waitKeyScan k { s with keypad := k, display_changed := false }) := by
    simp [cycle, hw]
  refine ⟨?_, ?_, ?_, fun a => ?_, fun a => ?_, ?_, ?_, fun r c => ?_, fun hnone => ?_,
    fun j hj hkj hmin => ?_⟩ <;>
    rw [hcy] <;>
    simp only [Option.map_some, waitKeyScan]
  · cases h : (List.range 16).find? (fun i => k i) <;> simp
  · cases h : (List.range 16).find? (fun i => k i) <;> simp
  · cases h : (List.range 16).find? (fun i => k i) <;> simp
  · cases h : (List.range 16).find? (fun i => k i) <;> simp
  · cases h : (List.range 16).find? (fun i => k i) <;> simp
  · cases h : (List.range 16).find? (fun i => k i) <;> simp
  · cases h : (List.range 16).find? (fun i => k i) <;> simp
  · cases h : (List.range 16).find? (fun i => k i) <;> simp
  · have h : (List.range 16).find? (fun i => k i) = none := by
      rw [List.find?_eq_none]
      intro i hi
      simp [hnone i (List.mem_range.mp hi)]
    simp [h, hw]
  · have h : (List.range 16).find? (fun i => k i) = some j := by
      rw [List.range_eq_range']
      exact find?_range'_least k j 16 0 (Nat.zero_le j) (by omega) hkj
        (fun i _ hij => hmin i hij)
    refine ⟨by simp [h], by simp [h, upd], fun i hi => by simp [h, upd, hi]⟩

/-- Concrete state for the C4 witness: waiting for a key into `V3`. -/
def c4WitState : Cpu :=
  { baseCpu with
    keypad_waiting := true,
    keypad_register := 3,
    program_counter := 0x123,
    delay_timer := 9 }

/-- Witness for C4 at concrete inputs: an all-false keypad leaves the
wait state, PC and timer untouched; a keypad with keys 7 and 9 pressed
clears the wait, writes the lowest pressed index 7 into `V3`, and still
does not fetch (PC and timer unchanged). -/
theorem c4_waiting_cycle_witness :
    ((cycle (fun _ => false) 0 c4WitState).map fun t => t.keypad_waiting) = some true ∧
    ((cycle (fun _ => false) 0 c4WitState).map fun t => t.v_registers 3) = some 0 ∧
    ((cycle (fun i => i == 7 || i == 9) 0 c4WitState).map fun t => t.keypad_waiting)
      = some false ∧
    ((cycle (fun i => i == 7 || i == 9) 0 c4WitState).map fun t => t.v_registers 3)
      = some 7 ∧
    ((cycle (fun i => i == 7 || i == 9) 0 c4WitState).map fun t => t.program_counter)
      = some 0x123 ∧
    ((cycle (fun i => i == 7 || i == 9) 0 c4WitState).map fun t => t.delay_timer)
      = some 9 := by
  have h1 := c4_waiting_cycle c4WitState (fun _ => false) 0 rfl
  have h2 := c4_waiting_cycle c4WitState (fun i => i == 7 || i == 9) 0 rfl
  have hn := h1.2.2.2.2.2.2.2.2.1 (fun i _ => rfl)
  have hp := h2.2.2.2.2.2.2.2.2.2 7 (by decide) (by decide) (fun i hi => by
    interval_cases i <;> decide)
  exact ⟨hn.1, hn.2 3, hp.1, hp.2.1, h2.1, h2.2.1⟩

/-! ### C7 — unrecognized opcodes. -/

/-- First half of the dispatch-table nibble patterns of `exec_opcode`. -/
def opcodeKnownLow (opcode : Nat) : Prop :=
  ((opcode &&& 0xF000) >>> 12 = 0x0 ∧ (opcode &&& 0x0F00) >>> 8 = 0x0 ∧ (opcode &&& 0x00F0) >>> 4 = 0xe ∧ opcode &&& 0x000F = 0x0) ∨
  ((opcode &&& 0xF000) >>> 12 = 0x0 ∧ (opcode &&& 0x0F00) >>> 8 = 0x0 ∧ (opcode &&& 0x00F0) >>> 4 = 0xe ∧ opcode &&& 0x000F = 0xe) ∨
  (opcode &&& 0xF000) >>> 12 = 0x1 ∨
  (opcode &&& 0xF000) >>> 12 = 0x2 ∨
  (opcode &&& 0xF000) >>> 12 = 0x3 ∨
  (opcode &&& 0xF000) >>> 12 = 0x4 ∨
  ((opcode &&& 0xF000) >>> 12 = 0x5 ∧ opcode &&& 0x000F = 0x0) ∨
  (opcode &&& 0xF000) >>> 12 = 0x6 ∨
  (opcode &&& 0xF000) >>> 12 = 0x7 ∨
  ((opcode &&& 0xF000) >>> 12 = 0x8 ∧ opcode &&& 0x000F = 0x0) ∨
  ((opcode &&& 0xF000) >>> 12 = 0x8 ∧ opcode &&& 0x000F = 0x1) ∨
  ((opcode &&& 0xF000) >>> 12 = 0x8 ∧ opcode &&& 0x000F = 0x2) ∨
  ((opcode &&& 0xF000) >>> 12 = 0x8 ∧ opcode &&& 0x000F = 0x3) ∨
  ((opcode &&& 0xF000) >>> 12 = 0x8 ∧ opcode &&& 0x000F = 0x4) ∨
  ((opcode &&& 0xF000) >>> 12 = 0x8 ∧ opcode &&& 0x000F = 0x5) ∨
  ((opcode &&& 0xF000) >>> 12 = 0x8 ∧ opcode &&& 0x000F = 0x6) ∨
  ((opcode &&& 0xF000) >>> 12 = 0x8 ∧ opcode &&& 0x000F = 0x7)

/-- Second half of the dispatch-table nibble patterns of `exec_opcode`. -/
def opcodeKnownHigh (opcode : Nat) : Prop :=
  ((opcode &&& 0xF000) >>> 12 = 0x8 ∧ opcode &&& 0x000F = 0xe) ∨
  ((opcode &&& 0xF000) >>> 12 = 0x9 ∧ opcode &&& 0x000F = 0x0) ∨
  (opcode &&& 0xF000) >>> 12 = 0xa ∨
  (opcode &&& 0xF000) >>> 12 = 0xb ∨
  (opcode &&& 0xF000) >>> 12 = 0xc ∨
  (opcode &&& 0xF000) >>> 12 = 0xd ∨
  ((opcode &&& 0xF000) >>> 12 = 0xe ∧ (opcode &&& 0x00F0) >>> 4 = 0x9 ∧ opcode &&& 0x000F = 0xe) ∨
  ((opcode &&& 0xF000) >>> 12 = 0xe ∧ (opcode &&& 0x00F0) >>> 4 = 0xa ∧ opcode &&& 0x000F = 0x1) ∨
  ((opcode &&& 0xF000) >>> 12 = 0xf ∧ (opcode &&& 0x00F0) >>> 4 = 0x0 ∧ opcode &&& 0x000F = 0x7) ∨
  ((opcode &&& 0xF000) >>> 12 = 0xf ∧ (opcode &&& 0x00F0) >>> 4 = 0x0 ∧ opcode &&& 0x000F = 0xa) ∨
  ((opcode &&& 0xF000) >>> 12 = 0xf ∧ (opcode &&& 0x00F0) >>> 4 = 0x1 ∧ opcode &&& 0x000F = 0x5) ∨
  ((opcode &&& 0xF000) >>> 12 = 0xf ∧ (opcode &&& 0x00F0) >>> 4 = 0x1 ∧ opcode &&& 0x000F = 0x8) ∨
  ((opcode &&& 0xF000) >>> 12 = 0xf ∧ (opcode &&& 0x00F0) >>> 4 = 0x1 ∧ opcode &&& 0x000F = 0xe) ∨
  ((opcode &&& 0xF000) >>> 12 = 0xf ∧ (opcode &&& 0x00F0) >>> 4 = 0x2 ∧ opcode &&& 0x000F = 0x9) ∨
  ((opcode &&& 0xF000) >>> 12 = 0xf ∧ (opcode &&& 0x00F0) >>> 4 = 0x3 ∧ opcode &&& 0x000F = 0x3) ∨
  ((opcode &&& 0xF000) >>> 12 = 0xf ∧ (opcode &&& 0x00F0) >>> 4 = 0x5 ∧ opcode &&& 0x000F = 0x5) ∨
  ((opcode &&& 0xF000) >>> 12 = 0xf ∧ (opcode &&& 0x00F0) >>> 4 = 0x6 ∧ opcode &&& 0x000F = 0x5)

instance (opcode : Nat) : Decidable (opcodeKnownLow opcode) := by
  unfold opcodeKnownLow; infer_instance

instance (opcode : Nat) : Decidable (opcodeKnownHigh opcode) := by
  unfold opcodeKnownHigh; infer_instance

/-- An opcode "matches no entry" of the dispatch table iff this fails. -/
abbrev opcodeKnown (opcode : Nat) : Prop :=
  opcodeKnownLow opcode ∨ opcodeKnownHigh opcode

/-- `tickTimers` is the saturating decrement of both timers. -/
theorem tickTimers_eq (s : Cpu) :
    tickTimers s =
      { s with delay_timer := s.delay_timer - 1, sound_timer := s.sound_timer - 1 } := by
  cases s
  simp only [tickTimers]
  split_ifs <;> simp_all

/-- `applyPc` on the `Next` effect advances the PC by the opcode size. -/
theorem applyPc_Next (s : Cpu) :
    applyPc .Next s = { s with program_counter := s.program_counter + 2 } := rfl

/-- The dispatch falls through to the catch-all on any unknown opcode,
returning the state unchanged with the `Next` effect. -/
theorem exec_opcode_unknown (s : Cpu) (opcode rand : Nat)
    (h : ¬ opcodeKnown opcode) :
    exec_opcode s opcode rand = some (s, .Next) := by
  simp only [opcodeKnown, opcodeKnownLow, opcodeKnownHigh, not_or] at h
  obtain ⟨⟨h1, h2, h3, h4, h5, h6, h7, h8, h9, h10, h11, h12, h13, h14, h15, h16, h17⟩,
    h18, h19, h20, h21, h22, h23, h24, h25, h26, h27, h28, h29, h30, h31, h32, h33,
    h34⟩ := h
  simp [exec_opcode, h1, h2, h3, h4, h5, h6, h7, h8, h9, h10, h11, h12, h13, h14, h15,
    h16, h17, h18, h19, h20, h21, h22, h23, h24, h25, h26, h27, h28, h29, h30, h31,
    h32, h33, h34]

/-- The concrete state refuting C7: opcode `0xFFFF` at `pc = 0x200`,
`delay_timer = 1`. -/
def c7State : Cpu :=
  { baseCpu with
    memory := (fun a => if a = 0x200 then 0xFF else if a = 0x201 then 0xFF else 0),
    delay_timer := 1 }

/-- C7 counterexample: cycling on the unknown opcode `0xFFFF` with
`delay_timer = 1` advances the PC by 2 but decrements the delay timer
to `0`; the claim demands the timers be left unchanged. -/
theorem c7_counterexample :
    ((cycle (fun _ => false) 0 c7State).map fun t => t.delay_timer) = some 0 ∧
    c7State.delay_timer = 1 ∧
    ((cycle (fun _ => false) 0 c7State).map fun t => t.program_counter) = some 0x202 ∧
    (0 : Nat) ≠ 1 :=
  ⟨rfl, rfl, rfl, by decide⟩

/-- C7 amended: a cycle on an opcode matching no dispatch entry is never
fatal; it advances the PC by exactly 2 and leaves the registers, index
register, memory, stack and frame buffer unchanged, while the timers
undergo the normal once-per-cycle saturating decrement (they are NOT
skipped: the claim's "timers unchanged" holds only when they were
already 0). -/
theorem c7_unknown_noop (s : Cpu) (k : Nat → Bool) (rand : Nat)
    (hw : s.keypad_waiting = false)
    (hpc : s.program_counter + 1 < MEMORY_SIZE)
    (hunk : ¬ opcodeKnown
      ((s.memory s.program_counter <<< 8) ||| s.memory (s.program_counter + 1))) :
    ((cycle k rand s).map fun t => t.program_counter) = some (s.program_counter + 2) ∧
    (∀ i, ((cycle k rand s).map fun t => t.v_registers i) = some (s.v_registers i)) ∧
    ((cycle k rand s).map fun t => t.index_register) = some s.index_register ∧
    (∀ a, ((cycle k rand s).map fun t => t.memory a) = some (s.memory a)) ∧
    (∀ a, ((cycle k rand s).map fun t => t.stack a) = some (s.stack a)) ∧
    ((cycle k rand s).map fun t => t.stack_pointer) = some s.stack_pointer ∧
    (∀ r c, ((cycle k rand s).map fun t => t.display r c) = some (s.display r c)) ∧
    ((cycle k rand s).map fun t => t.keypad_waiting) = some false ∧
    ((cycle k rand s).map fun t => t.delay_timer) = some (s.delay_timer - 1) ∧
    ((cycle k rand s).map fun t => t.sound_timer) = some (s.sound_timer - 1) := by
  have hcy : cycle k rand s =
      some (tickTimers (applyPc .Next { s with keypad := k, display_changed := false })) := by
    rw [cycle]
    simp [hw, fetch_opcode, hpc, exec_opcode_unknown, hunk]
  refine ⟨?_, fun i => ?_, ?_, fun a => ?_, fun a => ?_, ?_, fun r c => ?_, ?_, ?_, ?_⟩ <;>
    rw [hcy] <;> simp [tickTimers_eq, applyPc_Next, hw]

/-- Witness for C7's amended theorem at the concrete unknown opcode
`0xFFFF` (state `c7State`, `pc = 0x200`, `delay_timer = 1`). -/
theorem c7_unknown_noop_witness :
    ((cycle (fun _ => true) 5 c7State).map fun t => t.program_counter) = some 0x202 ∧
    ((cycle (fun _ => true) 5 c7State).map fun t => t.v_registers 0) = some 0 ∧
    ((cycle (fun _ => true) 5 c7State).map fun t => t.delay_timer) = some 0 := by
  have h := c7_unknown_noop c7State (fun _ => true) 5 rfl (by decide) (by decide)
  exact ⟨h.1, h.2.1 0, h.2.2.2.2.2.2.2.2.1⟩

/-! ### C5 — Call (2nnn) followed by Return (00EE). -/

theorem and_div_pow2 (a b k : Nat) : (a &&& b) / 2 ^ k = a / 2 ^ k &&& b / 2 ^ k := by
  induction k with
  | zero => simp
  | succ k ih =>
    rw [pow_succ, ← Nat.div_div_eq_div_mul, ← Nat.div_div_eq_div_mul,
      ← Nat.div_div_eq_div_mul, ih, Nat.and_div_two]

/-- The high nibble `(op & 0xF000) >> 12` is `op / 4096 % 16`. -/
theorem nib1_eq (op : Nat) : (op &&& 0xF000) >>> 12 = op / 4096 % 16 := by
  rw [Nat.shiftRight_eq_div_pow]
  have h := and_div_pow2 op 0xF000 12
  norm_num at h
  rw [h]
  have h2 := Nat.and_pow_two_sub_one_eq_mod (op / 4096) 4
  norm_num at h2
  exact h2

/-- The address operand `op & 0x0FFF` is `op % 4096`. -/
theorem nnn_eq (op : Nat) : op &&& 0x0FFF = op % 4096 := by
  have h := Nat.and_pow_two_sub_one_eq_mod op 12
  norm_num at h
  exact h

/-- Big-endian byte pair as an arithmetic expression. -/
theorem shiftLeft8_or_eq (a b : Nat) (hb : b < 256) : (a <<< 8) ||| b = 256 * a + b := by
  rw [Nat.shiftLeft_eq]
  have h := Nat.mul_add_lt_is_or (i := 8) (by simpa using hb) a
  simpa [Nat.mul_comm] using h.symm

/-- `applyPc` on a `Jump` effect. -/
theorem applyPc_Jump (addr : Nat) (s : Cpu) :
    applyPc (.Jump addr) s = { s with program_counter := addr } := rfl

/-- A non-waiting cycle whose dispatch succeeds is fetch → exec →
PC update → timers. -/
theorem cycle_exec (s : Cpu) (k : Nat → Bool) (rand op : Nat) (s1 : Cpu)
    (pcI : PcInstructions)
    (hw : s.keypad_waiting = false)
    (hpc : s.program_counter + 1 < MEMORY_SIZE)
    (hop : (s.memory s.program_counter <<< 8) ||| s.memory (s.program_counter + 1) = op)
    (hex : exec_opcode { s with keypad := k, display_changed := false } op rand
      = some (s1, pcI)) :
    cycle k rand s = some (tickTimers (applyPc pcI s1)) := by
  rw [cycle]
  rw [hw] at hex
  simp [hw, fetch_opcode, hpc, hop, hex]

/-- C5: when a Call (2nnn) executes at address `p` (stack not full) and
the two bytes at `nnn` encode Return (00EE), the first cycle pushes
`p + 2` and jumps to `nnn`, and the Return cycle pops it back: the PC
after the two cycles is `p + 2`, the address directly after the call
site — not `nnn` and not `nnn - 2`. -/
theorem c5_call_then_return (s : Cpu) (k k2 : Nat → Bool) (r r2 nnn : Nat)
    (hw : s.keypad_waiting = false)
    (hpc : s.program_counter + 1 < MEMORY_SIZE)
    (hsp : s.stack_pointer < STACK_SIZE)
    (hnnn : nnn < 4096)
    (hn1 : nnn + 1 < MEMORY_SIZE)
    (hm0 : s.memory s.program_counter = 0x20 + nnn / 256)
    (hm1 : s.memory (s.program_counter + 1) = nnn % 256)
    (hm2 : s.memory nnn = 0x00)
    (hm3 : s.memory (nnn + 1) = 0xEE) :
    ((cycle k r s).map fun t => t.program_counter) = some nnn ∧
    (((cycle k r s).bind fun t => cycle k2 r2 t).map fun t => t.program_counter) =
      some (s.program_counter + 2) := by
  have ho : (s.memory s.program_counter <<< 8) ||| s.memory (s.program_counter + 1)
      = 0x2000 + nnn := by
    rw [hm0, hm1, shiftLeft8_or_eq _ _ (by omega)]
    omega
  have e1 : ((0x2000 + nnn : Nat) &&& 0xF000) >>> 12 = 2 := by
    rw [nib1_eq]
    omega
  have e2 : (0x2000 + nnn : Nat) &&& 0x0FFF = nnn := by
    rw [nnn_eq]
    omega
  have hex1 : exec_opcode
      { s with keypad := k, display_changed := false } (0x2000 + nnn) r
      = some ({ s with
                keypad := k,
                display_changed := false,
                stack := upd s.stack s.stack_pointer (s.program_counter + 2),
                stack_pointer := s.stack_pointer + 1 }, .Jump nnn) := by
    simp only [exec_opcode]
    rw [if_neg (by simp [e1]), if_neg (by simp [e1]), if_neg (by simp [e1]),
      if_pos e1, e2]
    simp [op_2nnn, hsp, OPCODE_SIZE]
  have hcy1 : cycle k r s = some (tickTimers (applyPc (.Jump nnn)
      { s with
        keypad := k,
        display_changed := false,
        stack := upd s.stack s.stack_pointer (s.program_counter + 2),
        stack_pointer := s.stack_pointer + 1 })) :=
    cycle_exec s k r (0x2000 + nnn) _ _ hw hpc ho hex1
  have ht1 : tickTimers (applyPc (.Jump nnn)
      { s with
        keypad := k,
        display_changed := false,
        stack := upd s.stack s.stack_pointer (s.program_counter + 2),
        stack_pointer := s.stack_pointer + 1 }) =
      { s with
        keypad := k,
        display_changed := false,
        stack := upd s.stack s.stack_pointer (s.program_counter + 2),
        stack_pointer := s.stack_pointer + 1,
        program_counter := nnn,
        delay_timer := s.delay_timer - 1,
        sound_timer := s.sound_timer - 1 } := by
    rw [applyPc_Jump, tickTimers_eq]
  refine ⟨by rw [hcy1, ht1]; rfl, ?_⟩
  rw [hcy1, ht1, Option.some_bind]
  have f1 : ((0xEE : Nat) &&& 0xF000) >>> 12 = 0x0 := by decide
  have f2 : ((0xEE : Nat) &&& 0x0F00) >>> 8 = 0x0 := by decide
  have f3 : ((0xEE : Nat) &&& 0x00F0) >>> 4 = 0xe := by decide
  have f4 : (0xEE : Nat) &&& 0x000F = 0xe := by decide
  have hex2 : exec_opcode
      { s with
        keypad := k2,
        display_changed := false,
        stack := upd s.stack s.stack_pointer (s.program_counter + 2),
        stack_pointer := s.stack_pointer + 1,
        program_counter := nnn,
        delay_timer := s.delay_timer - 1,
        sound_timer := s.sound_timer - 1 } 0xEE r2
      = some ({ s with
                keypad := k2,
                display_changed := false,
                stack := upd s.stack s.stack_pointer (s.program_counter + 2),
                stack_pointer := s.stack_pointer,
                program_counter := nnn,
                delay_timer := s.delay_timer - 1,
                sound_timer := s.sound_timer - 1 }, .Jump (s.program_counter + 2)) := by
    simp only [exec_opcode]
    rw [if_neg (by simp [f4]), if_pos ⟨f1, f2, f3, f4⟩]
    simp only [op_00ee]
    rw [if_neg (by simp)]
    simp [upd_self]
  have hcy2 := cycle_exec
    { s with
      keypad := k,
      display_changed := false,
      stack := upd s.stack s.stack_pointer (s.program_counter + 2),
      stack_pointer := s.stack_pointer + 1,
      program_counter := nnn,
      delay_timer := s.delay_timer - 1,
      sound_timer := s.sound_timer - 1 }
    k2 r2 0xEE _ _ hw (by simpa using hn1)
    (show (s.memory nnn <<< 8) ||| s.memory (nnn + 1) = 0xEE by
      rw [hm2, hm3]
      decide)
    hex2
  rw [hcy2, applyPc_Jump, tickTimers_eq]
  rfl

/-- Concrete state for the C5 witness: `CALL 0x300` at `0x200`,
`RET` at `0x300`. -/
def c5WitState : Cpu :=
  { baseCpu with
    memory := (fun a => if a = 0x200 then 0x23 else if a = 0x201 then 0 else
      if a = 0x300 then 0 else if a = 0x301 then 0xEE else 0) }

/-- Witness for C5 at the concrete program: after the Call cycle the PC
is `0x300`; after the Return cycle it is `0x202 = 0x200 + 2`, the
address directly after the call site. -/
theorem c5_call_then_return_witness :
    ((cycle (fun _ => false) 0 c5WitState).map fun t => t.program_counter)
      = some 0x300 ∧
    (((cycle (fun _ => false) 0 c5WitState).bind fun t =>
        cycle (fun _ => false) 0 t).map fun t => t.program_counter)
      = some 0x202 := by
  have h := c5_call_then_return c5WitState (fun _ => false) (fun _ => false) 0 0 0x300
    rfl (by decide) (by decide) (by decide) (by decide) rfl rfl rfl rfl
  exact ⟨h.1, h.2⟩

/-! ### C3 / C9 — the draw instruction (Dxyn).

The nested loops of `op_dxyn` are characterised pointwise: each sprite
bit of row `byte` lands on row `(Vy + byte) % 32`, column
`(Vx + bit) % 64`, and VF accumulates the OR of "sprite bit AND old
pixel" over all positions.  `spriteBitM`, `rowOr` and `drawOr` are the
closed forms used to state the characterisation. -/

/-- Sprite bit `bit` of sprite row `byte` (MSB first), read from memory
`m` at base index `i`. -/
def spriteBitM (m : Nat → Nat) (i byte bit : Nat) : Nat :=
  (m (i + byte) >>> (7 - bit)) &&& 1

/-- OR-accumulated collision bits of the first `k` bits of sprite row
`byte` drawn on display row `yRow` of `d` at origin column `vx`. -/
def rowOr (m : Nat → Nat) (i : Nat) (d : Nat → Nat → Nat) (vx yRow byte : Nat) :
    Nat → Nat
  | 0 => 0
  | b + 1 =>
    rowOr m i d vx yRow byte b |||
      (spriteBitM m i byte b &&& d yRow ((vx + b) % 64))

/-- OR-accumulated collision bits of the first `n` sprite rows drawn on
`d` at origin `(vx, vy)`. -/
def drawOr (m : Nat → Nat) (i : Nat) (d : Nat → Nat → Nat) (vx vy : Nat) :
    Nat → Nat
  | 0 => 0
  | r + 1 => drawOr m i d vx vy r ||| rowOr m i d vx ((vy + r) % 32) r 8

/-- `rowOr` only looks at `m`, `i`, `vx` and row `yRow` of the display. -/
theorem rowOr_congr (m m' : Nat → Nat) (i i' : Nat) (d d' : Nat → Nat → Nat)
    (vx vx' yRow byte k : Nat) (hm : m = m') (hi : i = i') (hvx : vx = vx')
    (hd : ∀ b, b < k → d yRow ((vx + b) % 64) = d' yRow ((vx + b) % 64)) :
    rowOr m i d vx yRow byte k = rowOr m' i' d' vx' yRow byte k := by
  subst hm hi hvx
  induction k with
  | zero => rfl
  | succ k ih =>
    rw [rowOr, rowOr, ih (fun b hb => hd b (by omega)), hd k (by omega)]

/-- Characterisation of the inner bit loop of the draw instruction:
fields other than VF and the display are untouched; the `k` pixels of
the row get the sprite bits XORed in; everything else of the display is
untouched; VF accumulates the collision OR. -/
theorem drawBits_spec (x byte yRow : Nat) (hx : x ≠ 0xF) (s : Cpu) (k : Nat)
    (hk : k ≤ 8) (t : Cpu) (ht : t = (List.range k).foldl (drawBit x byte yRow) s) :
    (t.memory = s.memory ∧ t.index_register = s.index_register ∧
     t.program_counter = s.program_counter ∧ t.stack = s.stack ∧
     t.stack_pointer = s.stack_pointer ∧ t.delay_timer = s.delay_timer ∧
     t.sound_timer = s.sound_timer ∧ t.keypad = s.keypad ∧
     t.keypad_waiting = s.keypad_waiting ∧ t.keypad_register = s.keypad_register ∧
     t.display_changed = s.display_changed) ∧
    (∀ i, i ≠ 0xF → t.v_registers i = s.v_registers i) ∧
    (∀ b, b < k → t.display yRow ((s.v_registers x + b) % 64) =
      s.display yRow ((s.v_registers x + b) % 64) ^^^
        spriteBitM s.memory s.index_register byte b) ∧
    (∀ rr cc, (rr ≠ yRow ∨ ∀ b, b < k → cc ≠ (s.v_registers x + b) % 64) →
      t.display rr cc = s.display rr cc) ∧
    t.v_registers 0xF = s.v_registers 0xF |||
      rowOr s.memory s.index_register s.display (s.v_registers x) yRow byte k := by
  induction k generalizing t with
  | zero =>
    subst ht
    simp [rowOr]
  | succ k ih =>
    rw [List.range_succ, List.foldl_append, List.foldl_cons, List.foldl_nil] at ht
    obtain ⟨hfields, hregs, htgt, hoth, hvf⟩ :=
      ih (by omega) ((List.range k).foldl (drawBit x byte yRow) s) rfl
    obtain ⟨hmem, hidx, hpc, hstk, hsp, hdt, hst, hkp, hkw, hkr, hdc⟩ := hfields
    set u := (List.range k).foldl (drawBit x byte yRow) s with hu
    have hux : u.v_registers x = s.v_registers x := hregs x hx
    have hcolk : u.display yRow ((s.v_registers x + k) % 64) =
        s.display yRow ((s.v_registers x + k) % 64) := by
      refine hoth _ _ (Or.inr fun b hb hbad => ?_)
      omega
    have htv : t.v_registers = upd u.v_registers 0xF (u.v_registers 0xF |||
        (spriteBitM u.memory u.index_register byte k &&&
          u.display yRow ((u.v_registers x + k) % 64))) := by
      rw [ht]
      rfl
    have htd : t.display = updD u.display yRow ((u.v_registers x + k) % 64)
        (u.display yRow ((u.v_registers x + k) % 64) ^^^
          spriteBitM u.memory u.index_register byte k) := by
      rw [ht]
      rfl
    refine ⟨⟨?_, ?_, ?_, ?_, ?_, ?_, ?_, ?_, ?_, ?_, ?_⟩, ?_, ?_, ?_, ?_⟩
    · rw [ht]; exact hmem
    · rw [ht]; exact hidx
    · rw [ht]; exact hpc
    · rw [ht]; exact hstk
    · rw [ht]; exact hsp
    · rw [ht]; exact hdt
    · rw [ht]; exact hst
    · rw [ht]; exact hkp
    · rw [ht]; exact hkw
    · rw [ht]; exact hkr
    · rw [ht]; exact hdc
    · intro i hi
      rw [htv, upd_ne _ _ _ _ hi]
      exact hregs i hi
    · intro b hb
      rw [htd, hux, hmem, hidx]
      by_cases hbk : b = k
      · subst hbk
        rw [updD, if_pos ⟨rfl, rfl⟩, hcolk]
      · have hbk' : b < k := by omega
        have hne : (s.v_registers x + b) % 64 ≠ (s.v_registers x + k) % 64 := by
          omega
        rw [updD, if_neg (fun h => hne h.2)]
        exact htgt b hbk'
    · intro rr cc hcond
      rw [htd, hux]
      have hne : ¬(rr = yRow ∧ cc = (s.v_registers x + k) % 64) := by
        rcases hcond with h | h
        · exact fun hc => h hc.1
        · exact fun hc => h k (by omega) hc.2
      rw [updD, if_neg hne]
      refine hoth rr cc ?_
      rcases hcond with h | h
      · exact Or.inl h
      · exact Or.inr fun b hb => h b (by omega)
    · rw [htv, upd_self, hvf, hux, hmem, hidx, rowOr, Nat.or_assoc, hcolk]

/-- Characterisation of the outer row loop of the draw instruction, for
coordinate registers distinct from VF and at most 15 sprite rows (the
row count is a nibble): sprite row `r` bit `b` lands exactly on row
`(Vy + r) % 32`, column `(Vx + b) % 64`; other pixels are untouched;
VF accumulates the collision OR over all rows. -/
theorem drawBytes_spec (x y : Nat) (hx : x ≠ 0xF) (hy : y ≠ 0xF) (s : Cpu)
    (n : Nat) (hn : n ≤ 15) (t : Cpu)
    (ht : t = (List.range n).foldl (drawByte x y) s) :
    (t.memory = s.memory ∧ t.index_register = s.index_register ∧
     t.program_counter = s.program_counter ∧ t.stack = s.stack ∧
     t.stack_pointer = s.stack_pointer ∧ t.delay_timer = s.delay_timer ∧
     t.sound_timer = s.sound_timer ∧ t.keypad = s.keypad ∧
     t.keypad_waiting = s.keypad_waiting ∧ t.keypad_register = s.keypad_register ∧
     t.display_changed = s.display_changed) ∧
    (∀ i, i ≠ 0xF → t.v_registers i = s.v_registers i) ∧
    (∀ r b, r < n → b < 8 →
      t.display ((s.v_registers y + r) % 32) ((s.v_registers x + b) % 64) =
        s.display ((s.v_registers y + r) % 32) ((s.v_registers x + b) % 64) ^^^
          spriteBitM s.memory s.index_register r b) ∧
    (∀ rr cc, (∀ r, r < n → rr ≠ (s.v_registers y + r) % 32) ∨
              (∀ b, b < 8 → cc ≠ (s.v_registers x + b) % 64) →
      t.display rr cc = s.display rr cc) ∧
    t.v_registers 0xF = s.v_registers 0xF |||
      drawOr s.memory s.index_register s.display
        (s.v_registers x) (s.v_registers y) n := by
  induction n generalizing t with
  | zero =>
    subst ht
    simp [drawOr]
  | succ n ih =>
    rw [List.range_succ, List.foldl_append, List.foldl_cons, List.foldl_nil] at ht
    obtain ⟨hfields, hregs, htgt, hoth, hvf⟩ :=
      ih (by omega) ((List.range n).foldl (drawByte x y) s) rfl
    obtain ⟨hmem, hidx, hpc, hstk, hsp, hdt, hst, hkp, hkw, hkr, hdc⟩ := hfields
    set u := (List.range n).foldl (drawByte x y) s with hu
    have hux : u.v_registers x = s.v_registers x := hregs x hx
    have huy : u.v_registers y = s.v_registers y := hregs y hy
    have ht' : t = (List.range 8).foldl
        (drawBit x n ((s.v_registers y + n) % 32)) u := by
      rw [ht, drawByte, huy]
      rfl
    obtain ⟨ifields, iregs, itgt, ioth, ivf⟩ :=
      drawBits_spec x n ((s.v_registers y + n) % 32) hx u 8 le_rfl t ht'
    obtain ⟨imem, iidx, ipc, istk, isp, idt, ist, ikp, ikw, ikr, idc⟩ := ifields
    have hrowdist : ∀ r, r < n → (s.v_registers y + r) % 32 ≠
        (s.v_registers y + n) % 32 := by
      intro r hr
      omega
    have hrowold : ∀ b, b < 8 →
        u.display ((s.v_registers y + n) % 32) ((s.v_registers x + b) % 64) =
        s.display ((s.v_registers y + n) % 32) ((s.v_registers x + b) % 64) := by
      intro b hb
      exact hoth _ _ (Or.inl fun r hr => fun hbad =>
        hrowdist r hr hbad.symm)
    refine ⟨⟨?_, ?_, ?_, ?_, ?_, ?_, ?_, ?_, ?_, ?_, ?_⟩, ?_, ?_, ?_, ?_⟩
    · rw [imem]; exact hmem
    · rw [iidx]; exact hidx
    · rw [ipc]; exact hpc
    · rw [istk]; exact hstk
    · rw [isp]; exact hsp
    · rw [idt]; exact hdt
    · rw [ist]; exact hst
    · rw [ikp]; exact hkp
    · rw [ikw]; exact hkw
    · rw [ikr]; exact hkr
    · rw [idc]; exact hdc
    · intro i hi
      rw [iregs i hi]
      exact hregs i hi
    · intro r b hr hb
      by_cases hrn : r = n
      · subst hrn
        have := itgt b hb
        rw [hux, hmem, hidx] at this
        rw [this, hrowold b hb]
      · have hr' : r < n := by omega
        have := ioth ((s.v_registers y + r) % 32) ((s.v_registers x + b) % 64)
          (Or.inl (hrowdist r hr'))
        rw [this]
        exact htgt r b hr' hb
    · intro rr cc hcond
      have hinner : t.display rr cc = u.display rr cc := by
        refine ioth rr cc ?_
        rcases hcond with h | h
        · exact Or.inl (h n (by omega))
        · refine Or.inr fun b hb => ?_
          rw [hux]
          exact h b hb
      rw [hinner]
      refine hoth rr cc ?_
      rcases hcond with h | h
      · exact Or.inl fun r hr => h r (by omega)
      · exact Or.inr h
    · rw [ivf, hvf, hux, hmem, hidx, Nat.or_assoc, drawOr]
      have : rowOr s.memory s.index_register u.display (s.v_registers x)
          ((s.v_registers y + n) % 32) n 8 =
          rowOr s.memory s.index_register s.display (s.v_registers x)
          ((s.v_registers y + n) % 32) n 8 := by
        refine rowOr_congr _ _ _ _ _ _ _ _ _ _ _ rfl rfl rfl ?_
        intro b hb
        exact hrowold b hb
      rw [this]

/-- Characterisation of the whole draw handler `op_dxyn` for coordinate
registers distinct from VF, with the sprite rows in memory bounds: the
handler succeeds with the `Next` effect, XORs sprite row `r` bit `b`
into row `(Vy + r) % 32`, column `(Vx + b) % 64`, leaves every other
pixel and all non-VF registers alone, and leaves in VF the accumulated
collision OR (computed from the pre-draw display). -/
theorem op_dxyn_spec (s : Cpu) (x y n : Nat) (hx : x ≠ 0xF) (hy : y ≠ 0xF)
    (hn : n ≤ 15) (hI : n = 0 ∨ s.index_register + n ≤ MEMORY_SIZE) :
    ∃ s', op_dxyn x y n s = some (s', .Next) ∧
      (∀ i, i ≠ 0xF → s'.v_registers i = s.v_registers i) ∧
      s'.memory = s.memory ∧ s'.index_register = s.index_register ∧
      s'.program_counter = s.program_counter ∧ s'.stack = s.stack ∧
      s'.stack_pointer = s.stack_pointer ∧ s'.delay_timer = s.delay_timer ∧
      s'.sound_timer = s.sound_timer ∧ s'.keypad = s.keypad ∧
      s'.keypad_waiting = s.keypad_waiting ∧
      s'.keypad_register = s.keypad_register ∧
      s'.display_changed = true ∧
      (∀ r b, r < n → b < 8 →
        s'.display ((s.v_registers y + r) % 32) ((s.v_registers x + b) % 64) =
          s.display ((s.v_registers y + r) % 32) ((s.v_registers x + b) % 64) ^^^
            spriteBitM s.memory s.index_register r b) ∧
      (∀ rr cc, (∀ r, r < n → rr ≠ (s.v_registers y + r) % 32) ∨
                (∀ b, b < 8 → cc ≠ (s.v_registers x + b) % 64) →
        s'.display rr cc = s.display rr cc) ∧
      s'.v_registers 0xF = drawOr s.memory s.index_register s.display
        (s.v_registers x) (s.v_registers y) n := by
  obtain ⟨⟨hmem, hidx, hpc, hstk, hsp, hdt, hst, hkp, hkw, hkr, hdc⟩,
      hregs, htgt, hoth, hvf⟩ :=
    drawBytes_spec x y hx hy { s with v_registers := upd s.v_registers 0xF 0 } n hn
      ((List.range n).foldl (drawByte x y)
        { s with v_registers := upd s.v_registers 0xF 0 }) rfl
  set u := (List.range n).foldl (drawByte x y)
    { s with v_registers := upd s.v_registers 0xF 0 } with hu
  dsimp only at hmem hidx hpc hstk hsp hdt hst hkp hkw hkr hdc hregs htgt hoth hvf
  have ex : upd s.v_registers 0xF 0 x = s.v_registers x := upd_ne _ _ _ _ hx
  have ey : upd s.v_registers 0xF 0 y = s.v_registers y := upd_ne _ _ _ _ hy
  have ef : upd s.v_registers 0xF 0 0xF = 0 := upd_self _ _ _
  rw [ex, ey] at htgt hoth hvf
  rw [ef, Nat.zero_or] at hvf
  refine ⟨{ u with display_changed := true }, ?_, fun i hi => ?_, hmem, hidx, hpc,
    hstk, hsp, hdt, hst, hkp, hkw, hkr, rfl, htgt, hoth, hvf⟩
  · simp only [op_dxyn]
    rw [if_pos hI]
  · exact (hregs i hi).trans (upd_ne _ _ _ _ hi)

/-- The concrete state refuting C3 as stated: coordinate register
`y = 0xF` with `VF = 1`, a one-row sprite `0x80` at `I = 0`. -/
def c3CexState : Cpu :=
  { baseCpu with
    v_registers := (fun i => if i = 0xF then 1 else 0),
    memory := (fun a => if a = 0 then 0x80 else 0) }

/-- C3 counterexample: with `y = 0xF` (originY = VF = 1), sprite bit 0
of row 0 should land on row `(1 + 0) % 32 = 1`, column 0, turning that
pixel on — but the draw instruction zeroes VF before computing the row,
so the pixel at row 1 stays off (it is drawn at row 0 instead). -/
theorem c3_counterexample :
    (c3CexState.v_registers 0xF + 0) % 32 = 1 ∧
    (c3CexState.v_registers 0 + 0) % 64 = 0 ∧
    c3CexState.display 1 0 ^^^
      spriteBitM c3CexState.memory c3CexState.index_register 0 0 = 1 ∧
    dAfter (op_dxyn 0 0xF 1 c3CexState) 1 0 = some 0 ∧
    dAfter (op_dxyn 0 0xF 1 c3CexState) 0 0 = some 1 ∧
    (0 : Nat) ≠ 1 :=
  ⟨rfl, rfl, rfl, rfl, rfl, by decide⟩

/-- C3 amended: provided neither coordinate register is VF (the draw
clobbers VF during execution, moving the origin mid-instruction), each
sprite bit `b` of sprite row `r` targets exactly the pixel at column
`(originX + b) % 64`, row `(originY + r) % 32` — wrapping to the
opposite edge, never discarding, clipping or faulting — and every pixel
outside those targets is untouched. -/
theorem c3_draw_wraparound (s : Cpu) (x y n r b : Nat) (hx : x ≠ 0xF)
    (hy : y ≠ 0xF) (hn : n ≤ 15) (hI : n = 0 ∨ s.index_register + n ≤ MEMORY_SIZE)
    (hr : r < n) (hb : b < 8) :
    dAfter (op_dxyn x y n s) ((s.v_registers y + r) % 32)
        ((s.v_registers x + b) % 64) =
      some (s.display ((s.v_registers y + r) % 32) ((s.v_registers x + b) % 64) ^^^
        spriteBitM s.memory s.index_register r b) ∧
    (∀ rr cc, (∀ r', r' < n → rr ≠ (s.v_registers y + r') % 32) ∨
              (∀ b', b' < 8 → cc ≠ (s.v_registers x + b') % 64) →
      dAfter (op_dxyn x y n s) rr cc = some (s.display rr cc)) ∧
    effOf (op_dxyn x y n s) = some PcInstructions.Next := by
  obtain ⟨s', hop, hregs, hrest⟩ := op_dxyn_spec s x y n hx hy hn hI
  obtain ⟨_, _, _, _, _, _, _, _, _, _, _, htgt, hoth, _⟩ := hrest
  refine ⟨?_, fun rr cc hcond => ?_, ?_⟩
  · simp [dAfter, hop, htgt r b hr hb]
  · simp [dAfter, hop, hoth rr cc hcond]
  · simp [effOf, hop]

/-- Concrete state for the C3 witness: origin `(63, 0)`, one sprite row
`0xC0` (bits 0 and 1 set) at `I = 0`. -/
def c3WitState : Cpu :=
  { baseCpu with
    v_registers := (fun i => if i = 0 then 63 else 0),
    memory := (fun a => if a = 0 then 0xC0 else 0) }

/-- Witness for C3's amended theorem: a sprite drawn at `originX = 63`
wraps — bit offset 0 lands at column 63 and bit offset 1 at column
`(63 + 1) % 64 = 0` of the same row, not discarded. -/
theorem c3_draw_wraparound_witness :
    dAfter (op_dxyn 0 1 1 c3WitState) 0 63 = some 1 ∧
    dAfter (op_dxyn 0 1 1 c3WitState) 0 0 = some 1 ∧
    dAfter (op_dxyn 0 1 1 c3WitState) 5 7 = some 0 := by
  have h0 := (c3_draw_wraparound c3WitState 0 1 1 0 0 (by decide) (by decide)
    (by decide) (Or.inr (by decide)) (by decide) (by decide)).1
  have h1 := (c3_draw_wraparound c3WitState 0 1 1 0 1 (by decide) (by decide)
    (by decide) (Or.inr (by decide)) (by decide) (by decide)).1
  have h2 := (c3_draw_wraparound c3WitState 0 1 1 0 0 (by decide) (by decide)
    (by decide) (Or.inr (by decide)) (by decide) (by decide)).2.1 5 7
    (Or.inl (by decide))
  exact ⟨h0, h1, h2⟩

theorem or1_le (a b : Nat) (ha : a ≤ 1) (hb : b ≤ 1) : a ||| b ≤ 1 := by
  interval_cases a <;> interval_cases b <;> decide

theorem or1_eq_one (a b : Nat) (ha : a ≤ 1) (hb : b ≤ 1) :
    a ||| b = 1 ↔ a = 1 ∨ b = 1 := by
  interval_cases a <;> interval_cases b <;> decide

theorem and1_eq_one (a b : Nat) (ha : a ≤ 1) (hb : b ≤ 1) :
    a &&& b = 1 ↔ a = 1 ∧ b = 1 := by
  interval_cases a <;> interval_cases b <;> decide

theorem xor1_le (a b : Nat) (ha : a ≤ 1) (hb : b ≤ 1) : a ^^^ b ≤ 1 := by
  interval_cases a <;> interval_cases b <;> decide

/-- The key XOR-collision exchange: for binary pixels, "sprite bit on
and post-draw pixel on" is "post-draw pixel on and pre-draw pixel off". -/
theorem xor_flip_iff (a b : Nat) (ha : a ≤ 1) (hb : b ≤ 1) :
    (b = 1 ∧ a ^^^ b = 1) ↔ (a ^^^ b = 1 ∧ a = 0) := by
  interval_cases a <;> interval_cases b <;> decide

theorem spriteBitM_le (m : Nat → Nat) (i byte bit : Nat) :
    spriteBitM m i byte bit ≤ 1 := Nat.and_le_right

theorem rowOr_le (m : Nat → Nat) (i : Nat) (d : Nat → Nat → Nat)
    (vx yRow byte k : Nat) :
    rowOr m i d vx yRow byte k ≤ 1 := by
  induction k with
  | zero => simp [rowOr]
  | succ k ih =>
    exact or1_le _ _ ih (le_trans Nat.and_le_left (spriteBitM_le _ _ _ _))

theorem rowOr_eq_one (m : Nat → Nat) (i : Nat) (d : Nat → Nat → Nat)
    (vx yRow byte k : Nat) (hd : ∀ rr cc, d rr cc ≤ 1) :
    rowOr m i d vx yRow byte k = 1 ↔
      ∃ b, b < k ∧ spriteBitM m i byte b = 1 ∧ d yRow ((vx + b) % 64) = 1 := by
  induction k with
  | zero => simp [rowOr]
  | succ k ih =>
    rw [rowOr, or1_eq_one _ _ (rowOr_le _ _ _ _ _ _ _)
      (le_trans Nat.and_le_left (spriteBitM_le _ _ _ _)), ih]
    constructor
    · rintro (⟨b, hb, h1, h2⟩ | h)
      · exact ⟨b, by omega, h1, h2⟩
      · obtain ⟨h1, h2⟩ := (and1_eq_one _ _ (spriteBitM_le _ _ _ _) (hd _ _)).mp h
        exact ⟨k, by omega, h1, h2⟩
    · rintro ⟨b, hb, h1, h2⟩
      by_cases hbk : b = k
      · subst hbk
        exact Or.inr ((and1_eq_one _ _ (spriteBitM_le _ _ _ _) (hd _ _)).mpr ⟨h1, h2⟩)
      · exact Or.inl ⟨b, by omega, h1, h2⟩

theorem drawOr_le (m : Nat → Nat) (i : Nat) (d : Nat → Nat → Nat)
    (vx vy n : Nat) :
    drawOr m i d vx vy n ≤ 1 := by
  induction n with
  | zero => simp [drawOr]
  | succ n ih => exact or1_le _ _ ih (rowOr_le _ _ _ _ _ _ _)

theorem drawOr_eq_one (m : Nat → Nat) (i : Nat) (d : Nat → Nat → Nat)
    (vx vy n : Nat) (hd : ∀ rr cc, d rr cc ≤ 1) :
    drawOr m i d vx vy n = 1 ↔
      ∃ r b, r < n ∧ b < 8 ∧ spriteBitM m i r b = 1 ∧
        d ((vy + r) % 32) ((vx + b) % 64) = 1 := by
  induction n with
  | zero => simp [drawOr]
  | succ n ih =>
    rw [drawOr, or1_eq_one _ _ (drawOr_le _ _ _ _ _ _)
      (rowOr_le _ _ _ _ _ _ _), ih, rowOr_eq_one _ _ _ _ _ _ _ hd]
    constructor
    · rintro (⟨r, b, hr, hb, h1, h2⟩ | ⟨b, hb, h1, h2⟩)
      · exact ⟨r, b, by omega, hb, h1, h2⟩
      · exact ⟨n, b, by omega, hb, h1, h2⟩
    · rintro ⟨r, b, hr, hb, h1, h2⟩
      by_cases hrn : r = n
      · subst hrn
        exact Or.inr ⟨b, hb, h1, h2⟩
      · exact Or.inl ⟨r, b, by omega, hb, h1, h2⟩

/-- C9: drawing the same sprite twice with identical sprite bytes and
identical `(Vx, Vy)` (coordinate registers distinct from VF, which the
draw itself overwrites; sprite rows in memory bounds; binary frame
buffer) returns every pixel to its pre-draw state, and the second draw
reports collision (`VF = 1`) exactly when some pixel was set (off → on)
by the first draw. -/
theorem c9_draw_twice (s : Cpu) (x y n : Nat) (hx : x ≠ 0xF) (hy : y ≠ 0xF)
    (hn : n ≤ 15) (hI : n = 0 ∨ s.index_register + n ≤ MEMORY_SIZE)
    (hd : ∀ rr cc, s.display rr cc ≤ 1) :
    ∃ s1 s2, op_dxyn x y n s = some (s1, .Next) ∧
      op_dxyn x y n s1 = some (s2, .Next) ∧
      (∀ rr cc, s2.display rr cc = s.display rr cc) ∧
      (s2.v_registers 0xF = 1 ↔ ∃ r b, r < n ∧ b < 8 ∧
        s1.display ((s.v_registers y + r) % 32) ((s.v_registers x + b) % 64) = 1 ∧
        s.display ((s.v_registers y + r) % 32) ((s.v_registers x + b) % 64) = 0) := by
  obtain ⟨s1, hop1, hregs1, hmem1, hidx1, _, _, _, _, _, _, _, _, _, htgt1, hoth1,
    hvf1⟩ := op_dxyn_spec s x y n hx hy hn hI
  obtain ⟨s2, hop2, hregs2, hmem2, hidx2, _, _, _, _, _, _, _, _, _, htgt2, hoth2,
    hvf2⟩ := op_dxyn_spec s1 x y n hx hy hn (by rw [hidx1]; exact hI)
  have e1x : s1.v_registers x = s.v_registers x := hregs1 x hx
  have e1y : s1.v_registers y = s.v_registers y := hregs1 y hy
  rw [e1x, e1y] at htgt2 hoth2 hvf2
  rw [hmem1, hidx1] at htgt2 hvf2
  have hd1 : ∀ rr cc, s1.display rr cc ≤ 1 := by
    intro rr cc
    by_cases hP : (∀ r, r < n → rr ≠ (s.v_registers y + r) % 32) ∨
        (∀ b, b < 8 → cc ≠ (s.v_registers x + b) % 64)
    · rw [hoth1 rr cc hP]
      exact hd rr cc
    · push_neg at hP
      obtain ⟨⟨r, hr, hrr⟩, ⟨b, hb, hcc⟩⟩ := hP
      subst hrr hcc
      rw [htgt1 r b hr hb]
      exact xor1_le _ _ (hd _ _) (spriteBitM_le _ _ _ _)
  refine ⟨s1, s2, hop1, hop2, fun rr cc => ?_, ?_⟩
  · by_cases hP : (∀ r, r < n → rr ≠ (s.v_registers y + r) % 32) ∨
        (∀ b, b < 8 → cc ≠ (s.v_registers x + b) % 64)
    · rw [hoth2 rr cc hP, hoth1 rr cc hP]
    · push_neg at hP
      obtain ⟨⟨r, hr, hrr⟩, ⟨b, hb, hcc⟩⟩ := hP
      subst hrr hcc
      rw [htgt2 r b hr hb, htgt1 r b hr hb, Nat.xor_assoc, Nat.xor_self,
        Nat.xor_zero]
  · rw [hvf2, drawOr_eq_one _ _ _ _ _ _ hd1]
    constructor
    · rintro ⟨r, b, hr, hb, h1, h2⟩
      refine ⟨r, b, hr, hb, h2, ?_⟩
      have := (xor_flip_iff (s.display ((s.v_registers y + r) % 32)
          ((s.v_registers x + b) % 64)) (spriteBitM s.memory s.index_register r b)
          (hd _ _) (spriteBitM_le _ _ _ _)).mp ⟨h1, by rw [← htgt1 r b hr hb]; exact h2⟩
      exact this.2
    · rintro ⟨r, b, hr, hb, h1, h2⟩
      refine ⟨r, b, hr, hb, ?_, h1⟩
      have hx1 : s.display ((s.v_registers y + r) % 32)
          ((s.v_registers x + b) % 64) ^^^
          spriteBitM s.memory s.index_register r b = 1 := by
        rw [← htgt1 r b hr hb]
        exact h1
      have hs := spriteBitM_le s.memory s.index_register r b
      rw [h2, Nat.zero_xor] at hx1
      exact hx1

/-- Concrete state for the C9 witness: pixel `(0,0)` on, sprite row
`0xC0` (bits at columns 0 and 1) at `I = 0`, origin `(0, 0)`. -/
def c9WitState : Cpu :=
  { baseCpu with
    display := (fun r c => if r = 0 ∧ c = 0 then 1 else 0),
    memory := (fun a => if a = 0 then 0xC0 else 0) }

/-- Witness for C9: the first draw erases `(0,0)` and sets `(0,1)`; the
second draw restores the buffer (pixel `(0,0)` back on, `(0,1)` back
off) and reports `VF = 1` because the first draw set pixel `(0,1)`. -/
theorem c9_draw_twice_witness :
    (((op_dxyn 0 1 1 c9WitState).bind fun p => op_dxyn 0 1 1 p.1).map
      fun q => q.1.display 0 0) = some 1 ∧
    (((op_dxyn 0 1 1 c9WitState).bind fun p => op_dxyn 0 1 1 p.1).map
      fun q => q.1.display 0 1) = some 0 ∧
    (((op_dxyn 0 1 1 c9WitState).bind fun p => op_dxyn 0 1 1 p.1).map
      fun q => q.1.v_registers 0xF) = some 1 := by
  obtain ⟨s1, s2, h1, h2, h3, h4⟩ := c9_draw_twice c9WitState 0 1 1 (by decide)
    (by decide) (by decide) (Or.inr (by decide))
    (fun rr cc => by
      show (if rr = 0 ∧ cc = 0 then (1 : Nat) else 0) ≤ 1
      split <;> decide)
  have hs1 : dAfter (op_dxyn 0 1 1 c9WitState) 0 1 = some 1 := by decide
  rw [h1] at hs1
  simp only [dAfter] at hs1
  rw [Option.map_some'] at hs1
  have hs1' : s1.display 0 1 = 1 := by
    exact Option.some_injective _ hs1
  have hvf : s2.v_registers 0xF = 1 := by
    rw [h4]
    exact ⟨0, 1, by decide, by decide, hs1', rfl⟩
  rw [h1, Option.some_bind, h2]
  refine ⟨?_, ?_, ?_⟩
  · rw [Option.map_some']
    rw [show s2.display 0 0 = c9WitState.display 0 0 from h3 0 0]
    rfl
  · rw [Option.map_some']
    rw [show s2.display 0 1 = c9WitState.display 0 1 from h3 0 1]
    rfl
  · rw [Option.map_some']
    rw [show ((s2, PcInstructions.Next).1.v_registers 0xF) = 1 from hvf]

end Chip8
